import Mathlib

/-!
# go-chi book service: embedding of `src/go-chi/main.go`

The service keeps one SQLite table `books(id, title, author, year)` and answers
`GET /api/health`, `GET /api/books` and `GET /api/books/{id}`.

Modelling conventions.
* Go `int` is 64 bits wide; values are `Int`, and `Atoi` checks the range.
* A response is the status code, the `Content-Type` header and the JSON value that
  `json.NewEncoder(w).Encode(v)` writes (as a syntax tree, before rendering to text).
* A Go slice is `Option (List α)`: `none` is the nil slice, `some l` a non-nil slice.
* The database is seen by a handler through the outcome of its prepared statement,
  including the errors `database/sql` may return (`Storage`). `Storage.healthy t` is
  the behaviour of the two `SELECT` statements on a table `t` when nothing fails.
-/

namespace GoChi

/-- The Go struct `Book` (fields in declaration order). -/
structure Book where
  ID : Int
  Title : String
  Author : String
  Year : Int
  deriving DecidableEq, Repr

/-- Zero value of `Book`, as produced by `var b Book`. -/
def Book.zero : Book := ⟨0, "", "", 0⟩

/-- JSON values as written by `encoding/json`. -/
inductive JSON where
  | null
  | num (n : Int)
  | str (s : String)
  | arr (xs : List JSON)
  | obj (fields : List (String × JSON))
  deriving Repr

/-- A Go slice: `none` is the nil slice. -/
abbrev Slice (α : Type) := Option (List α)

/-- Elements of a slice; the nil slice has none. -/
def Slice.elems {α : Type} : Slice α → List α
  | none => []
  | some l => l

/-- Go `append(s, x)`: appending to the nil slice allocates a non-nil slice. -/
def Slice.append {α : Type} : Slice α → α → Slice α
  | none, x => some [x]
  | some l, x => some (l ++ [x])

/-- The values `main.go` hands to `writeJSON`. -/
inductive Payload where
  | strMap (key value : String)
  | book (b : Book)
  | books (bs : Slice Book)

/-- Encoding of a `Book` under its `json:"..."` tags. -/
def encodeBook (b : Book) : JSON :=
  .obj [("id", .num b.ID), ("title", .str b.Title), ("author", .str b.Author),
    ("year", .num b.Year)]

/-- What `json.Encode` produces: a nil slice is written as `null`, a non-nil slice
as an array, a one-entry `map[string]string` as an object. -/
def encode : Payload → JSON
  | .strMap k v => .obj [(k, .str v)]
  | .book b => encodeBook b
  | .books none => .null
  | .books (some l) => .arr (l.map encodeBook)

/-- HTTP response as left in the `http.ResponseWriter`. -/
structure Response where
  status : Nat
  contentType : String
  body : JSON

def StatusOK : Nat := 200
def StatusBadRequest : Nat := 400
def StatusNotFound : Nat := 404
def StatusInternalServerError : Nat := 500

/-- `writeJSON(w, status, v)`. -/
def writeJSON (status : Nat) (v : Payload) : Response :=
  { status := status, contentType := "application/json", body := encode v }

/-- Rows of the `books` table in the order a full scan returns them. -/
abbrev Table := List Book

/-- A database file: `none` when it has no `books` table yet. -/
abbrev DB := Option Table

/-- `CREATE TABLE IF NOT EXISTS books (...)`. -/
def createTableIfNotExists : DB → Table
  | none => []
  | some t => t

/-- Placement of a new row: SQLite keeps an `INTEGER PRIMARY KEY` table in rowid
order, so the row goes before the first row with a larger id. -/
def insertRow (b : Book) : Table → Table
  | [] => [b]
  | r :: rs => if b.ID < r.ID then b :: r :: rs else r :: insertRow b rs

/-- `INSERT OR IGNORE INTO books (id, title, author, year) VALUES (?, ?, ?, ?)`:
a row whose id is already present is left alone and nothing is inserted. -/
def insertOrIgnore (t : Table) (b : Book) : Table :=
  if t.any (fun r => r.ID == b.ID) then t else insertRow b t

/-- The `seeds` literal of `initDB`. -/
def seeds : List Book :=
  [ ⟨1, "The Rust Programming Language", "Steve Klabnik", 2019⟩,
    ⟨2, "The Go Programming Language", "Alan Donovan", 2015⟩,
    ⟨3, "Designing Data-Intensive Applications", "Martin Kleppmann", 2017⟩,
    ⟨4, "Clean Code", "Robert C. Martin", 2008⟩,
    ⟨5, "Structure and Interpretation of Computer Programs", "Harold Abelson", 1996⟩ ]

/-- `initDB`: the pragma does not touch the table, the table is created when absent,
then every seed goes through the insert-or-ignore statement in order. Each statement
is modelled by its SQL effect; `initDB` discards the statements' error results. -/
def initDB (db : DB) : DB :=
  some (seeds.foldl insertOrIgnore (createTableIfNotExists db))

/-- The table after start-up. -/
def DB.table : DB → Table
  | none => []
  | some t => t

/-- Errors of `database/sql`: the sentinel `sql.ErrNoRows`, or any other error with
its message. -/
inductive SqlError where
  | ErrNoRows
  | other (msg : String)
  deriving DecidableEq, Repr

/-- The method `err.Error()`. -/
def SqlError.Error : SqlError → String
  | .ErrNoRows => "sql: no rows in result set"
  | .other msg => msg

/-- One `Scan(&b.ID, &b.Title, &b.Author, &b.Year)` into a fresh `var b Book`:
the contents of `b` afterwards and the returned error. -/
structure Scanned where
  dest : Book
  err : Option SqlError

/-- A `*sql.Rows` cursor: one `Scanned` per `rows.Next()` that returned true, and
the value of `rows.Err()` once `rows.Next()` has returned false. -/
structure Rows where
  steps : List Scanned
  Err : Option SqlError

/-- Behaviour of the two prepared statements at request time. -/
structure Storage where
  /-- Result of `listStmt.Query()`. -/
  query : Except SqlError Rows
  /-- Result of `getStmt.QueryRow(id).Scan(...)`. -/
  queryRow : Int → Scanned

/-- Cursor of `SELECT id, title, author, year FROM books` on `t` without failure. -/
def Rows.ofTable (t : Table) : Rows :=
  { steps := t.map (fun b => { dest := b, err := none }), Err := none }

/-- Result of `SELECT ... WHERE id = ?` through `QueryRow(id).Scan` on `t` without
failure: the first matching row, or `sql.ErrNoRows` with `b` untouched. -/
def lookupRow (t : Table) (id : Int) : Scanned :=
  match t.find? (fun r => r.ID == id) with
  | some b => { dest := b, err := none }
  | none => { dest := Book.zero, err := some .ErrNoRows }

/-- Storage that serves table `t` and never fails. -/
def Storage.healthy (t : Table) : Storage :=
  { query := .ok (Rows.ofTable t), queryRow := lookupRow t }

/-- Storage whose list cursor yields the stored row `(7, "T", "A", 'abc')`, whose year
column holds text. `Scan` assigns the columns in order: id, title and author are
filled, the conversion of column 3 fails, and `b.Year` keeps its zero value. -/
def scanFailureStorage : Storage :=
  { query := .ok
      { steps := [{ dest := ⟨7, "T", "A", 0⟩,
                    err := some (.other "sql: Scan error on column index 3") }],
        Err := none },
    queryRow := fun _ =>
      { dest := ⟨7, "T", "A", 0⟩, err := some (.other "sql: Scan error on column index 3") } }

/-- Storage whose list cursor stops before the first row with an iteration error. -/
def iterationFailureStorage : Storage :=
  { query := .ok { steps := [], Err := some (.other "database disk image is malformed") },
    queryRow := lookupRow [] }

/-- Cursor on `t` that delivers the first `k` rows and then stops: `rows.Next()`
returns false and `rows.Err()` holds `err`. -/
def Rows.truncated (t : Table) (k : Nat) (err : SqlError) : Rows :=
  { steps := (t.take k).map (fun b => { dest := b, err := none }), Err := some err }

/-- Storage on the seeded table whose list query succeeds and whose cursor stops
after two of the five rows with a read error; lookups by id still work. -/
def truncatedStorage : Storage :=
  { query := .ok (Rows.truncated seeds 2 (.other "disk I/O error")),
    queryRow := lookupRow seeds }

/-- Storage on which both statements fail with a lock error. -/
def lockedStorage : Storage :=
  { query := .error (.other "database is locked"),
    queryRow := fun _ => { dest := Book.zero, err := some (.other "database is locked") } }

/-- Value of a decimal digit. -/
def digitVal (c : Char) : Option Nat :=
  if c.isDigit then some (c.toNat - 48) else none

/-- Unsigned decimal value of a digit string, `none` on any other character. -/
def parseDigits : List Char → Nat → Option Nat
  | [], n => some n
  | c :: cs, n =>
    match digitVal c with
    | none => none
    | some d => parseDigits cs (n * 10 + d)

/-- Go `strconv.Atoi` for a 64-bit `int`: an optional sign, then at least one decimal
digit, and a value within `[-2^63, 2^63 - 1]`; `none` stands for a non-nil error. -/
def Atoi (s : String) : Option Int :=
  match s.toList with
  | [] => none
  | c :: cs =>
    let neg := c == '-'
    let digits := if c == '-' || c == '+' then cs else c :: cs
    if digits.isEmpty then none
    else
      match parseDigits digits 0 with
      | none => none
      | some un =>
        if !neg && un ≥ 2 ^ 63 then none
        else if neg && un > 2 ^ 63 then none
        else some (if neg then - (un : Int) else (un : Int))

/-- Statements a handler executed. -/
inductive Stmt where
  | listStmt
  | getStmt (id : Int)
  deriving DecidableEq, Repr

/-- Outcome of a handler: the response and the statements it ran. -/
structure Handled where
  resp : Response
  executed : List Stmt

/-- Handler of `GET /api/health`. -/
def healthHandler (_db : Storage) : Handled :=
  { resp := writeJSON StatusOK (.strMap "status" "ok"), executed := [] }

/-- The loop `for rows.Next() { var b Book; rows.Scan(...); books = append(books, b) }`:
the error of `Scan` is dropped and `b` is appended whatever it holds. -/
def scanAll : List Scanned → Slice Book → Slice Book
  | [], books => books
  | s :: rest, books => scanAll rest (books.append s.dest)

/-- Handler of `GET /api/books`. `rows.Err()` is never read. -/
def booksHandler (db : Storage) : Handled :=
  match db.query with
  | .error err =>
    { resp := writeJSON StatusInternalServerError (.strMap "error" err.Error),
      executed := [.listStmt] }
  | .ok rows =>
    { resp := writeJSON StatusOK (.books (scanAll rows.steps none)),
      executed := [.listStmt] }

/-- Handler of `GET /api/books/{id}`; `idStr` is `chi.URLParam(r, "id")`. -/
def bookHandler (db : Storage) (idStr : String) : Handled :=
  match Atoi idStr with
  | none =>
    { resp := writeJSON StatusBadRequest (.strMap "error" "invalid id"), executed := [] }
  | some id =>
    let s := db.queryRow id
    match s.err with
    | some .ErrNoRows =>
      { resp := writeJSON StatusNotFound (.strMap "error" "not found"),
        executed := [.getStmt id] }
    | some err =>
      { resp := writeJSON StatusInternalServerError (.strMap "error" err.Error),
        executed := [.getStmt id] }
    | none =>
      { resp := writeJSON StatusOK (.book s.dest), executed := [.getStmt id] }

/-- Following the spec's words, "a base-10 integer": an optional sign followed by one
or more decimal digits. -/
def isBase10Integer (s : String) : Bool :=
  match s.toList with
  | [] => false
  | c :: cs =>
    let digits := if c == '-' || c == '+' then cs else c :: cs
    !digits.isEmpty && digits.all Char.isDigit

/-! ## Helper lemmas -/

theorem find_eq_of_nodup (t : Table) (b : Book) (huniq : (t.map Book.ID).Nodup)
    (hb : b ∈ t) : t.find? (fun r => r.ID == b.ID) = some b := by
  induction t with
  | nil => simp at hb
  | cons r rs ih =>
    rw [List.map_cons, List.nodup_cons] at huniq
    rcases List.mem_cons.mp hb with h | h
    · subst h
      simp
    · have hne : r.ID ≠ b.ID := by
        intro heq
        exact huniq.1 (heq ▸ List.mem_map_of_mem Book.ID h)
      rw [List.find?_cons_of_neg]
      · exact ih huniq.2 h
      · simpa using hne

theorem find_eq_none_of_absent (t : Table) (n : Int) (h : ∀ r ∈ t, r.ID ≠ n) :
    t.find? (fun r => r.ID == n) = none := by
  rw [List.find?_eq_none]
  intro r hr
  simpa using h r hr

theorem parseDigits_none (cs : List Char) (n : Nat) (h : cs.all Char.isDigit = false) :
    parseDigits cs n = none := by
  induction cs generalizing n with
  | nil => simp at h
  | cons c cs ih =>
    unfold parseDigits digitVal
    by_cases hc : c.isDigit = true
    · have hrest : cs.all Char.isDigit = false := by
        rw [List.all_cons, hc, Bool.true_and] at h
        exact h
      simp only [hc, if_true]
      exact ih _ hrest
    · simp [hc]

theorem Atoi_none_of_not_base10 (s : String) (h : isBase10Integer s = false) :
    Atoi s = none := by
  unfold isBase10Integer at h
  unfold Atoi
  cases hs : s.toList with
  | nil => rfl
  | cons c cs =>
    rw [hs] at h
    simp only at h ⊢
    generalize (if (c == '-' || c == '+') = true then cs else c :: cs) = ds at h ⊢
    cases hd : ds.isEmpty with
    | true => simp
    | false =>
      rw [hd] at h
      have hall : ds.all Char.isDigit = false := by simpa using h
      rw [parseDigits_none ds 0 hall]
      simp

theorem Atoi_examples :
    Atoi "2" = some 2 ∧ Atoi "+7" = some 7 ∧ Atoi "-17" = some (-17) ∧
    Atoi "" = none ∧ Atoi "-" = none ∧ Atoi "x" = none ∧ Atoi "1_000" = none ∧
    Atoi "9223372036854775807" = some 9223372036854775807 ∧
    Atoi "9223372036854775808" = none ∧
    Atoi "-9223372036854775808" = some (-9223372036854775808) ∧
    Atoi "-9223372036854775809" = none := by decide

theorem initDB_fresh : (initDB none).table = seeds := by decide

theorem scanAll_ofTable (t : Table) (acc : Slice Book) :
    scanAll (Rows.ofTable t).steps acc
      = if t = [] then acc else some (acc.elems ++ t) := by
  induction t generalizing acc with
  | nil => simp [Rows.ofTable, scanAll]
  | cons b rest ih =>
    have hstep : scanAll (Rows.ofTable (b :: rest)).steps acc
        = scanAll (Rows.ofTable rest).steps (acc.append b) := by
      simp [Rows.ofTable, scanAll]
    rw [hstep, ih]
    cases acc with
    | none => by_cases hr : rest = [] <;> simp [hr, Slice.append, Slice.elems]
    | some l => by_cases hr : rest = [] <;> simp [hr, Slice.append, Slice.elems]

/-! ## Seeding lemmas -/

theorem sublist_insertRow (b : Book) (t : Table) : t.Sublist (insertRow b t) := by
  induction t with
  | nil => simp [insertRow]
  | cons r rs ih =>
    unfold insertRow
    split
    · exact List.sublist_cons_self b (r :: rs)
    · exact ih.cons₂ r

theorem mem_insertRow (b x : Book) (t : Table) : x ∈ insertRow b t ↔ x = b ∨ x ∈ t := by
  induction t with
  | nil => simp [insertRow]
  | cons r rs ih =>
    unfold insertRow
    split
    · simp
    · simp only [List.mem_cons, ih]
      tauto

theorem ids_insertRow_perm (b : Book) (t : Table) :
    ((insertRow b t).map Book.ID).Perm (b.ID :: t.map Book.ID) := by
  induction t with
  | nil => simp [insertRow]
  | cons r rs ih =>
    unfold insertRow
    split
    · simp
    · simp only [List.map_cons]
      exact (ih.cons r.ID).trans (List.Perm.swap b.ID r.ID _)

theorem any_id_iff (t : Table) (n : Int) :
    t.any (fun r => r.ID == n) = true ↔ n ∈ t.map Book.ID := by
  simp only [List.any_eq_true, List.mem_map, beq_iff_eq]

theorem sublist_insertOrIgnore (t : Table) (b : Book) : t.Sublist (insertOrIgnore t b) := by
  unfold insertOrIgnore
  split
  · exact List.Sublist.refl t
  · exact sublist_insertRow b t

theorem mem_insertOrIgnore (t : Table) (b x : Book) :
    x ∈ insertOrIgnore t b ↔ x ∈ t ∨ (x = b ∧ b.ID ∉ t.map Book.ID) := by
  unfold insertOrIgnore
  by_cases h : t.any (fun r => r.ID == b.ID) = true
  · have hin := (any_id_iff t b.ID).mp h
    rw [if_pos h]
    tauto
  · have hin : b.ID ∉ t.map Book.ID := fun hm => h ((any_id_iff t b.ID).mpr hm)
    rw [if_neg h, mem_insertRow]
    tauto

theorem id_mem_insertOrIgnore (t : Table) (b : Book) :
    b.ID ∈ (insertOrIgnore t b).map Book.ID := by
  unfold insertOrIgnore
  by_cases h : t.any (fun r => r.ID == b.ID) = true
  · rw [if_pos h]
    exact (any_id_iff t b.ID).mp h
  · rw [if_neg h]
    exact (ids_insertRow_perm b t).mem_iff.mpr (List.mem_cons_self _ _)

theorem nodup_insertOrIgnore (t : Table) (b : Book) (h : (t.map Book.ID).Nodup) :
    ((insertOrIgnore t b).map Book.ID).Nodup := by
  unfold insertOrIgnore
  by_cases hany : t.any (fun r => r.ID == b.ID) = true
  · rw [if_pos hany]
    exact h
  · have hin : b.ID ∉ t.map Book.ID := fun hm => hany ((any_id_iff t b.ID).mpr hm)
    rw [if_neg hany]
    exact (ids_insertRow_perm b t).nodup_iff.mpr (List.nodup_cons.mpr ⟨hin, h⟩)

theorem insertOrIgnore_of_present (t : Table) (b : Book) (h : b.ID ∈ t.map Book.ID) :
    insertOrIgnore t b = t := by
  unfold insertOrIgnore
  simp [(any_id_iff t b.ID).mpr h]

theorem sublist_seedFold (ss : List Book) (t : Table) :
    t.Sublist (ss.foldl insertOrIgnore t) := by
  induction ss generalizing t with
  | nil => exact List.Sublist.refl t
  | cons s ss ih => exact (sublist_insertOrIgnore t s).trans (ih (insertOrIgnore t s))

theorem nodup_seedFold (ss : List Book) (t : Table) (h : (t.map Book.ID).Nodup) :
    ((ss.foldl insertOrIgnore t).map Book.ID).Nodup := by
  induction ss generalizing t with
  | nil => exact h
  | cons s ss ih => exact ih (insertOrIgnore t s) (nodup_insertOrIgnore t s h)

theorem ids_mono_seedFold (ss : List Book) (t : Table) (n : Int) (h : n ∈ t.map Book.ID) :
    n ∈ (ss.foldl insertOrIgnore t).map Book.ID :=
  ((sublist_seedFold ss t).map Book.ID).subset h

theorem seed_id_mem_seedFold (ss : List Book) (t : Table) (s : Book) (hs : s ∈ ss) :
    s.ID ∈ (ss.foldl insertOrIgnore t).map Book.ID := by
  induction ss generalizing t with
  | nil => simp at hs
  | cons a ss ih =>
    rcases List.mem_cons.mp hs with h | h
    · subst h
      exact ids_mono_seedFold ss _ _ (id_mem_insertOrIgnore t s)
    · exact ih (insertOrIgnore t a) h

theorem seedFold_of_present (ss : List Book) (t : Table)
    (h : ∀ s ∈ ss, s.ID ∈ t.map Book.ID) : ss.foldl insertOrIgnore t = t := by
  induction ss with
  | nil => rfl
  | cons a ss ih =>
    rw [List.foldl_cons, insertOrIgnore_of_present t a (h a (List.mem_cons_self _ _))]
    exact ih (fun s hs => h s (List.mem_cons_of_mem _ hs))

theorem mem_seedFold_origin (ss : List Book) (t : Table) (x : Book)
    (hx : x ∈ ss.foldl insertOrIgnore t) :
    x ∈ t ∨ (x ∈ ss ∧ x.ID ∉ t.map Book.ID) := by
  induction ss generalizing t with
  | nil => exact Or.inl hx
  | cons a ss ih =>
    rcases ih (insertOrIgnore t a) hx with h | ⟨hmem, hid⟩
    · rcases (mem_insertOrIgnore t a x).mp h with h1 | ⟨h1, h2⟩
      · exact Or.inl h1
      · exact Or.inr ⟨h1 ▸ List.mem_cons_self _ _, h1 ▸ h2⟩
    · refine Or.inr ⟨List.mem_cons_of_mem _ hmem, fun hin => hid ?_⟩
      exact ((sublist_insertOrIgnore t a).map Book.ID).subset hin

theorem seed_mem_seedFold (ss : List Book) (t : Table) (s : Book)
    (hnodup : (ss.map Book.ID).Nodup) (hs : s ∈ ss) (habs : s.ID ∉ t.map Book.ID) :
    s ∈ ss.foldl insertOrIgnore t := by
  induction ss generalizing t with
  | nil => simp at hs
  | cons a ss ih =>
    rw [List.map_cons, List.nodup_cons] at hnodup
    rcases List.mem_cons.mp hs with h | h
    · subst h
      exact (sublist_seedFold ss _).subset
        ((mem_insertOrIgnore t s s).mpr (Or.inr ⟨rfl, habs⟩))
    · refine ih (insertOrIgnore t a) hnodup.2 h ?_
      intro hin
      rcases List.mem_map.mp hin with ⟨y, hy, hyid⟩
      rcases (mem_insertOrIgnore t a y).mp hy with h1 | ⟨h1, _⟩
      · exact habs (hyid ▸ List.mem_map_of_mem Book.ID h1)
      · subst h1
        exact hnodup.1 (hyid ▸ List.mem_map_of_mem Book.ID h)

theorem seeds_ids_nodup : (seeds.map Book.ID).Nodup := by decide

theorem encodeBook_injective : Function.Injective encodeBook := by
  intro a b h
  cases a
  cases b
  simp only [encodeBook] at h
  simp_all

theorem booksHandler_ofTable (db : Storage) (t : Table)
    (hquery : db.query = .ok (Rows.ofTable t)) :
    (booksHandler db).resp.body
      = encode (.books (if t = [] then none else some t)) := by
  have hscan := scanAll_ofTable t none
  simp only [booksHandler, hquery, writeJSON, hscan, Slice.elems, List.nil_append]

theorem initDB_table_ne_nil (db : DB) : (initDB db).table ≠ [] := by
  intro h
  have hmem := seed_id_mem_seedFold seeds (createTableIfNotExists db)
    ⟨1, "The Rust Programming Language", "Steve Klabnik", 2019⟩ (by decide)
  simp only [initDB, DB.table] at h
  rw [h] at hmem
  simp at hmem

/-! ## Claims about the handlers -/

/-- C1: when the path segment parses to `n` and the table (ids unique) holds a row `b`
with id `n`, `GET /api/books/{id}` on storage that serves the table answers 200 with
the Book object whose id is `n` and whose title, author and year are those of `b`,
after running the get-by-id statement once. -/
theorem bookHandler_found (t : Table) (idStr : String) (n : Int) (b : Book)
    (hparse : Atoi idStr = some n) (huniq : (t.map Book.ID).Nodup)
    (hb : b ∈ t) (hid : b.ID = n) :
    (bookHandler (Storage.healthy t) idStr).resp.status = 200 ∧
    (bookHandler (Storage.healthy t) idStr).resp.body
      = .obj [("id", .num n), ("title", .str b.Title), ("author", .str b.Author),
          ("year", .num b.Year)] ∧
    (bookHandler (Storage.healthy t) idStr).executed = [.getStmt n] := by
  subst hid
  have hfind := find_eq_of_nodup t b huniq hb
  simp [bookHandler, hparse, Storage.healthy, lookupRow, hfind, writeJSON, encode,
    encodeBook, StatusOK]

/-- C1 at the scenario of the spec: after seeding a new database, `GET /api/books/2`
returns the Go book. -/
theorem bookHandler_found_witness :
    (bookHandler (Storage.healthy (initDB none).table) "2").resp.status = 200 ∧
    (bookHandler (Storage.healthy (initDB none).table) "2").resp.body
      = .obj [("id", .num 2), ("title", .str "The Go Programming Language"),
          ("author", .str "Alan Donovan"), ("year", .num 2015)] ∧
    (bookHandler (Storage.healthy (initDB none).table) "2").executed = [.getStmt 2] :=
  bookHandler_found (initDB none).table "2" 2
    ⟨2, "The Go Programming Language", "Alan Donovan", 2015⟩
    (by decide) (by decide) (by decide) rfl

/-- C2: when the path segment parses to `n` and no row of the table has id `n`,
`GET /api/books/{id}` on storage that serves the table answers 404 with body
`{"error":"not found"}`, and so never 200. -/
theorem bookHandler_absent (t : Table) (idStr : String) (n : Int)
    (hparse : Atoi idStr = some n) (habs : ∀ r ∈ t, r.ID ≠ n) :
    (bookHandler (Storage.healthy t) idStr).resp.status = 404 ∧
    (bookHandler (Storage.healthy t) idStr).resp.body
      = .obj [("error", .str "not found")] ∧
    (bookHandler (Storage.healthy t) idStr).resp.status ≠ 200 := by
  have hfind := find_eq_none_of_absent t n habs
  simp [bookHandler, hparse, Storage.healthy, lookupRow, hfind, writeJSON, encode,
    StatusNotFound]

/-- C2 at the scenario of the spec: `GET /api/books/999` on the seeded table is 404. -/
theorem bookHandler_absent_witness :
    (bookHandler (Storage.healthy (initDB none).table) "999").resp.status = 404 ∧
    (bookHandler (Storage.healthy (initDB none).table) "999").resp.body
      = .obj [("error", .str "not found")] ∧
    (bookHandler (Storage.healthy (initDB none).table) "999").resp.status ≠ 200 :=
  bookHandler_absent (initDB none).table "999" 999 (by decide) (by decide)

/-- C3: for a path segment that is not a base-10 integer, `GET /api/books/{id}`
answers 400 with body `{"error":"invalid id"}` on every storage, and runs no
statement. -/
theorem bookHandler_invalid_id (db : Storage) (idStr : String)
    (hbad : isBase10Integer idStr = false) :
    (bookHandler db idStr).resp.status = 400 ∧
    (bookHandler db idStr).resp.body = .obj [("error", .str "invalid id")] ∧
    (bookHandler db idStr).executed = [] := by
  have hnone := Atoi_none_of_not_base10 idStr hbad
  simp [bookHandler, hnone, writeJSON, encode, StatusBadRequest]

/-- C3 at the spec's example `"abc"`, on the seeded table. -/
theorem bookHandler_invalid_id_witness :
    isBase10Integer "abc" = false ∧
    (bookHandler (Storage.healthy (initDB none).table) "abc").resp.status = 400 ∧
    (bookHandler (Storage.healthy (initDB none).table) "abc").resp.body
      = .obj [("error", .str "invalid id")] ∧
    (bookHandler (Storage.healthy (initDB none).table) "abc").executed = [] :=
  ⟨by decide, bookHandler_invalid_id _ "abc" (by decide)⟩

/-- C4: on a table with zero rows served without failure, `GET /api/books` answers
200, but the body is JSON `null` (the slice `books` is still nil), which is not the
empty array `[]`. -/
theorem booksHandler_empty_is_null :
    (booksHandler (Storage.healthy [])).resp.status = 200 ∧
    (booksHandler (Storage.healthy [])).resp.body = JSON.null ∧
    (booksHandler (Storage.healthy [])).resp.body ≠ JSON.arr [] := by
  simp [booksHandler, Storage.healthy, Rows.ofTable, scanAll, writeJSON, encode, StatusOK]

/-- When the list query succeeds and its cursor delivers every row of the table `t`
with no scan error, `GET /api/books` answers 200 and the slice it encodes has exactly
the rows of `t` in storage order; for a table with at least one row the body is the
JSON array with one object per row, in that order, carrying that row's id, title,
author and year. -/
theorem booksHandler_delivered_rows (db : Storage) (t : Table) (err : Option SqlError)
    (hquery : db.query = .ok { steps := t.map (fun b => { dest := b, err := none }),
                               Err := err }) :
    (booksHandler db).resp.status = 200 ∧
    (∃ books : Slice Book, (booksHandler db).resp.body = encode (.books books) ∧
      books.elems = t) ∧
    (t ≠ [] → (booksHandler db).resp.body
      = .arr (t.map (fun b => .obj [("id", .num b.ID), ("title", .str b.Title),
          ("author", .str b.Author), ("year", .num b.Year)]))) := by
  have hscan := scanAll_ofTable t none
  simp only [Rows.ofTable] at hscan
  refine ⟨?_, ⟨scanAll (t.map (fun b => { dest := b, err := none })) none, ?_, ?_⟩, ?_⟩
  · simp [booksHandler, hquery, writeJSON, StatusOK]
  · simp [booksHandler, hquery, writeJSON]
  · rw [hscan]
    by_cases ht : t = [] <;> simp [ht, Slice.elems]
  · intro ht
    simp only [booksHandler, hquery, writeJSON, hscan, if_neg ht, Slice.elems, encode,
      List.nil_append]
    rfl

/-- C7: on the seeded table, with a list query that succeeds and a cursor that stops
after two rows, `GET /api/books` answers 200 with only the first two Books: the rows
with ids 3, 4 and 5 are dropped, although the same storage still serves id 5. -/
theorem booksHandler_drops_rows :
    truncatedStorage.query = .ok (Rows.truncated seeds 2 (.other "disk I/O error")) ∧
    (booksHandler truncatedStorage).resp.status = 200 ∧
    (booksHandler truncatedStorage).resp.body
      = .arr [.obj [("id", .num 1), ("title", .str "The Rust Programming Language"),
                ("author", .str "Steve Klabnik"), ("year", .num 2019)],
              .obj [("id", .num 2), ("title", .str "The Go Programming Language"),
                ("author", .str "Alan Donovan"), ("year", .num 2015)]] ∧
    seeds.length = 5 ∧
    (bookHandler truncatedStorage "5").resp.status = 200 := by
  refine ⟨rfl, ?_, ?_, rfl, ?_⟩
  · simp [booksHandler, truncatedStorage, writeJSON, StatusOK]
  · simp [booksHandler, truncatedStorage, Rows.truncated, seeds, scanAll, Slice.append,
      writeJSON, encode, encodeBook]
  · have hparse : Atoi "5" = some 5 := by decide
    have hfind : seeds.find? (fun r => r.ID == 5)
        = some ⟨5, "Structure and Interpretation of Computer Programs", "Harold Abelson",
            1996⟩ := by decide
    simp [bookHandler, hparse, truncatedStorage, lookupRow, hfind, writeJSON, StatusOK]

/-- C8: in `GET /api/books/{id}`, a lookup or scan error other than `sql.ErrNoRows`
gives 500 with body `{"error": err.Error()}`; in `GET /api/books`, a failing list
query gives 500 with body `{"error": err.Error()}`; neither response is a 200. -/
theorem storage_error_is_500 (db : Storage) :
    (∀ (idStr : String) (n : Int) (err : SqlError), Atoi idStr = some n →
      (db.queryRow n).err = some err → err ≠ .ErrNoRows →
      (bookHandler db idStr).resp.status = 500 ∧
      (bookHandler db idStr).resp.body = .obj [("error", .str err.Error)] ∧
      (bookHandler db idStr).resp.status ≠ 200) ∧
    (∀ err : SqlError, db.query = .error err →
      (booksHandler db).resp.status = 500 ∧
      (booksHandler db).resp.body = .obj [("error", .str err.Error)] ∧
      (booksHandler db).resp.status ≠ 200) := by
  constructor
  · intro idStr n err hparse herr hne
    cases err with
    | ErrNoRows => exact absurd rfl hne
    | other msg =>
      simp [bookHandler, hparse, herr, writeJSON, encode, StatusInternalServerError]
  · intro err hq
    simp [booksHandler, hq, writeJSON, encode, StatusInternalServerError]

/-- C8 on storage that is locked: both `GET /api/books/2` and `GET /api/books` answer
500 with the lock error's text. -/
theorem storage_error_is_500_witness :
    ((bookHandler lockedStorage "2").resp.status = 500 ∧
      (bookHandler lockedStorage "2").resp.body
        = .obj [("error", .str "database is locked")] ∧
      (bookHandler lockedStorage "2").resp.status ≠ 200) ∧
    ((booksHandler lockedStorage).resp.status = 500 ∧
      (booksHandler lockedStorage).resp.body
        = .obj [("error", .str "database is locked")] ∧
      (booksHandler lockedStorage).resp.status ≠ 200) :=
  ⟨(storage_error_is_500 lockedStorage).1 "2" 2 (.other "database is locked")
      (by decide) rfl (by decide),
    (storage_error_is_500 lockedStorage).2 (.other "database is locked") rfl⟩

/-- C9: when a row fails to scan, `GET /api/books` still answers 200, with a Book
whose unscanned year is the zero value; when iteration stops early with an error, it
still answers 200, with the rows read so far (here none, body `null`). -/
theorem booksHandler_partial_results :
    (booksHandler scanFailureStorage).resp.status = 200 ∧
    (booksHandler scanFailureStorage).resp.body
      = .arr [.obj [("id", .num 7), ("title", .str "T"), ("author", .str "A"),
          ("year", .num 0)]] ∧
    (booksHandler iterationFailureStorage).resp.status = 200 ∧
    (booksHandler iterationFailureStorage).resp.body = JSON.null := by
  simp [booksHandler, scanFailureStorage, iterationFailureStorage, scanAll, Slice.append,
    writeJSON, encode, encodeBook, StatusOK]

/-- C10: `GET /api/health` answers 200 with body `{"status":"ok"}` on every storage,
runs no statement, and any two storages get the same response. -/
theorem healthHandler_constant (db₁ db₂ : Storage) :
    healthHandler db₁ = healthHandler db₂ ∧
    (healthHandler db₁).resp.status = 200 ∧
    (healthHandler db₁).resp.body = .obj [("status", .str "ok")] ∧
    (healthHandler db₁).executed = [] := by
  simp [healthHandler, writeJSON, encode, StatusOK]

/-! ## Claims about seeding -/

/-- C5: for a table `t` with unique ids, `initDB` keeps every row of `t` (same rows,
same order), every row of the result is a row of `t` or a seed whose id `t` lacked,
every seed whose id `t` lacked is in the result, ids stay unique, and running
`initDB` again changes nothing. -/
theorem initDB_idempotent (t : Table) (huniq : (t.map Book.ID).Nodup) :
    t.Sublist (initDB (some t)).table ∧
    (∀ x ∈ (initDB (some t)).table, x ∈ t ∨ (x ∈ seeds ∧ ∀ r ∈ t, r.ID ≠ x.ID)) ∧
    (∀ s ∈ seeds, (∀ r ∈ t, r.ID ≠ s.ID) → s ∈ (initDB (some t)).table) ∧
    ((initDB (some t)).table.map Book.ID).Nodup ∧
    initDB (initDB (some t)) = initDB (some t) := by
  simp only [initDB, DB.table, createTableIfNotExists]
  refine ⟨sublist_seedFold seeds t, ?_, ?_, nodup_seedFold seeds t huniq, ?_⟩
  · intro x hx
    rcases mem_seedFold_origin seeds t x hx with h | ⟨h1, h2⟩
    · exact Or.inl h
    · exact Or.inr ⟨h1, fun r hr heq => h2 (heq ▸ List.mem_map_of_mem Book.ID hr)⟩
  · intro s hs habs
    refine seed_mem_seedFold seeds t s seeds_ids_nodup hs ?_
    intro hin
    rcases List.mem_map.mp hin with ⟨r, hr, hrid⟩
    exact habs r hr hrid
  · exact congrArg some
      (seedFold_of_present seeds _ (fun s hs => seed_id_mem_seedFold seeds t s hs))

/-- C5 on a table that already holds a different book under id 2 and a book under
id 9. -/
theorem initDB_idempotent_witness :
    ([⟨2, "Go in Action", "William Kennedy", 2015⟩, ⟨9, "SICP", "Abelson", 1985⟩] :
      Table).Sublist
      (initDB (some [⟨2, "Go in Action", "William Kennedy", 2015⟩,
        ⟨9, "SICP", "Abelson", 1985⟩])).table ∧
    (∀ x ∈ (initDB (some [⟨2, "Go in Action", "William Kennedy", 2015⟩,
        ⟨9, "SICP", "Abelson", 1985⟩])).table,
      x ∈ ([⟨2, "Go in Action", "William Kennedy", 2015⟩, ⟨9, "SICP", "Abelson", 1985⟩] :
        Table) ∨
      (x ∈ seeds ∧ ∀ r ∈ ([⟨2, "Go in Action", "William Kennedy", 2015⟩,
        ⟨9, "SICP", "Abelson", 1985⟩] : Table), r.ID ≠ x.ID)) ∧
    (∀ s ∈ seeds, (∀ r ∈ ([⟨2, "Go in Action", "William Kennedy", 2015⟩,
        ⟨9, "SICP", "Abelson", 1985⟩] : Table), r.ID ≠ s.ID) →
      s ∈ (initDB (some [⟨2, "Go in Action", "William Kennedy", 2015⟩,
        ⟨9, "SICP", "Abelson", 1985⟩])).table) ∧
    ((initDB (some [⟨2, "Go in Action", "William Kennedy", 2015⟩,
        ⟨9, "SICP", "Abelson", 1985⟩])).table.map Book.ID).Nodup ∧
    initDB (initDB (some [⟨2, "Go in Action", "William Kennedy", 2015⟩,
        ⟨9, "SICP", "Abelson", 1985⟩]))
      = initDB (some [⟨2, "Go in Action", "William Kennedy", 2015⟩,
        ⟨9, "SICP", "Abelson", 1985⟩]) :=
  initDB_idempotent [⟨2, "Go in Action", "William Kennedy", 2015⟩,
    ⟨9, "SICP", "Abelson", 1985⟩] (by decide)

/-- C6 as stated fails: it is not true that for every initial database each seed
record appears in the list response after `initDB`. A table that already holds
another book under id 2 keeps it, and the seed with id 2 is not listed. -/
theorem seed_record_not_always_listed :
    ¬ ∀ (db : DB), ∀ s ∈ seeds, ∃ bs : List Book,
      (booksHandler (Storage.healthy (initDB db).table)).resp.body
        = .arr (bs.map encodeBook) ∧ s ∈ bs := by
  intro h
  obtain ⟨bs, hbody, hs⟩ := h (some [⟨2, "Go in Action", "William Kennedy", 2015⟩])
    ⟨2, "The Go Programming Language", "Alan Donovan", 2015⟩ (by decide)
  rw [booksHandler_ofTable _ _ rfl, if_neg (initDB_table_ne_nil _)] at hbody
  simp only [encode, JSON.arr.injEq] at hbody
  have hbs := (List.map_injective_iff.mpr encodeBook_injective) hbody
  rw [← hbs] at hs
  revert hs
  decide

/-- C6, amended: after `initDB` on any initial database, `GET /api/books` answers 200
with a JSON array of Book objects `bs` such that: for each seed there is a Book with
the seed's id; the seed record itself is listed whenever the initial table had no row
with that id; every row of the initial table is listed as stored, in the stored
order; and when the initial ids are unique, a row stored under the seed's id is the
only Book listed with that id. -/
theorem booksHandler_after_initDB (db : DB) (s : Book) (hs : s ∈ seeds) :
    (booksHandler (Storage.healthy (initDB db).table)).resp.status = 200 ∧
    ∃ bs : List Book,
      (booksHandler (Storage.healthy (initDB db).table)).resp.body
        = .arr (bs.map (fun b => .obj [("id", .num b.ID), ("title", .str b.Title),
            ("author", .str b.Author), ("year", .num b.Year)])) ∧
      (∃ b ∈ bs, b.ID = s.ID) ∧
      ((∀ r ∈ db.table, r.ID ≠ s.ID) → s ∈ bs) ∧
      db.table.Sublist bs ∧
      ((db.table.map Book.ID).Nodup →
        ∀ r ∈ db.table, r.ID = s.ID → r ∈ bs ∧ ∀ b ∈ bs, b.ID = s.ID → b = r) := by
  have htab : db.table = createTableIfNotExists db := by cases db <;> rfl
  have hsub : db.table.Sublist (initDB db).table := by
    rw [htab]
    exact sublist_seedFold seeds _
  refine ⟨by simp [booksHandler, Storage.healthy, writeJSON, StatusOK],
    (initDB db).table, ?_, ?_, ?_, hsub, ?_⟩
  · rw [booksHandler_ofTable _ _ rfl, if_neg (initDB_table_ne_nil _)]
    rfl
  · have hid := seed_id_mem_seedFold seeds (createTableIfNotExists db) s hs
    rcases List.mem_map.mp hid with ⟨b, hb, hbid⟩
    exact ⟨b, hb, hbid⟩
  · intro habs
    refine seed_mem_seedFold seeds (createTableIfNotExists db) s seeds_ids_nodup hs ?_
    intro hin
    rcases List.mem_map.mp hin with ⟨r, hr, hrid⟩
    exact habs r (htab ▸ hr) hrid
  · intro huniq r hr hrid
    have hnodup : ((initDB db).table.map Book.ID).Nodup := by
      rw [htab] at huniq
      exact nodup_seedFold seeds _ huniq
    refine ⟨hsub.subset hr, fun b hb hbid => ?_⟩
    exact List.inj_on_of_nodup_map hnodup hb (hsub.subset hr) (hbid.trans hrid.symm)

/-- C6, amended, on a table that already holds another book under id 2 and a book
under id 9, for the seed with id 2. -/
theorem booksHandler_after_initDB_witness :
    (⟨2, "The Go Programming Language", "Alan Donovan", 2015⟩ : Book) ∈ seeds ∧
    (booksHandler (Storage.healthy (initDB (some
      [⟨2, "Go in Action", "William Kennedy", 2015⟩,
        ⟨9, "SICP", "Abelson", 1985⟩])).table)).resp.status = 200 ∧
    ∃ bs : List Book,
      (booksHandler (Storage.healthy (initDB (some
        [⟨2, "Go in Action", "William Kennedy", 2015⟩,
          ⟨9, "SICP", "Abelson", 1985⟩])).table)).resp.body
        = .arr (bs.map (fun b => .obj [("id", .num b.ID), ("title", .str b.Title),
            ("author", .str b.Author), ("year", .num b.Year)])) ∧
      (∃ b ∈ bs, b.ID = 2) ∧
      ((∀ r ∈ DB.table (some [⟨2, "Go in Action", "William Kennedy", 2015⟩,
          ⟨9, "SICP", "Abelson", 1985⟩]), r.ID ≠ 2) →
        (⟨2, "The Go Programming Language", "Alan Donovan", 2015⟩ : Book) ∈ bs) ∧
      (DB.table (some [⟨2, "Go in Action", "William Kennedy", 2015⟩,
          ⟨9, "SICP", "Abelson", 1985⟩])).Sublist bs ∧
      (((DB.table (some [⟨2, "Go in Action", "William Kennedy", 2015⟩,
          ⟨9, "SICP", "Abelson", 1985⟩])).map Book.ID).Nodup →
        ∀ r ∈ DB.table (some [⟨2, "Go in Action", "William Kennedy", 2015⟩,
          ⟨9, "SICP", "Abelson", 1985⟩]), r.ID = 2 →
          r ∈ bs ∧ ∀ b ∈ bs, b.ID = 2 → b = r) :=
  ⟨by decide, booksHandler_after_initDB
    (some [⟨2, "Go in Action", "William Kennedy", 2015⟩, ⟨9, "SICP", "Abelson", 1985⟩])
    ⟨2, "The Go Programming Language", "Alan Donovan", 2015⟩ (by decide)⟩

end GoChi
